import Mathlib

/-!
# Verification of the `product_variant_unique` module

Shallow embedding of `product.py`: the `Template` / `Product` model
extensions, the variant-uniqueness validator, the derived-field getters
and the two BOM-tree action adapters, together with theorems checking the
documented behaviour.

Records are modelled as plain structures, the database as lists of
records in insertion order (the default association order).  A Tryton
search runs under a transaction context whose `active_test` flag
(default `true`) filters out inactive (soft-deleted) records; functions
that depend on the ambient context take that flag as an explicit
`activeTest` argument, and functions that override it in the source
(`with Transaction().set_context(active_test=False)`) fix it internally.
-/

namespace ProductVariantUnique

/-- A `product.product` (variant) record.  An empty `code` models a
null/empty code (both are falsy in the source's `if product.code`). -/
structure ProductRec where
  id : Nat
  templateId : Nat
  code : String
  active : Bool
  attributes_string : String
deriving DecidableEq, Repr

/-- A `product.template` record. -/
structure TemplateRec where
  id : Nat
  name : String
  uniqueVariant : Bool
  active : Bool
deriving DecidableEq, Repr

/-- The database: all template and variant records, in insertion order. -/
structure DB where
  templates : List TemplateRec
  products : List ProductRec
deriving DecidableEq, Repr

/-- The `template.products` association with inactive records included
(the `active_test=False` view), in default (insertion) order. -/
def productsOf (db : DB) (tid : Nat) : List ProductRec :=
  db.products.filter (fun p => p.templateId == tid)

/-- The `template.products` association as seen under a transaction
context: when `activeTest` is true (the default), inactive records are
filtered out. -/
def visibleProducts (db : DB) (activeTest : Bool) (tid : Nat) : List ProductRec :=
  (productsOf db tid).filter (fun p => !activeTest || p.active)

/-- Look a template record up by id. -/
def findTemplate (db : DB) (tid : Nat) : Option TemplateRec :=
  db.templates.find? (fun t => t.id == tid)

/-- `Product.on_change_with_unique_variant`: a variant's derived
`unique_variant` flag is its template's flag (falsy when no template is
found). -/
def onChangeWithUniqueVariant (db : DB) (p : ProductRec) : Bool :=
  match findTemplate db p.templateId with
  | some t => t.uniqueVariant
  | none => false

/-- Outcome of a validation pass: either it returns normally or it
raises the `template_uniq` `UserError`. -/
inductive Validation where
  | ok
  | templateUniqError
deriving DecidableEq, Repr

/-- `list(set(products))` in the source: Tryton records of one model
compare equal iff their ids are equal, so the set keeps one record per
id (`seen` carries the ids already kept). -/
def dedupByIdAux (seen : List Nat) : List ProductRec → List ProductRec
  | [] => []
  | p :: ps =>
    if seen.contains p.id then dedupByIdAux seen ps
    else p :: dedupByIdAux (p.id :: seen) ps

/-- Deduplicate a product batch by record identity. -/
def dedupById (ps : List ProductRec) : List ProductRec :=
  dedupByIdAux [] ps

/-- The local `unique_products` of `validate_unique_template` (line
189): the batch's unique-flagged variants, deduplicated by identity. -/
def uniqueProducts (db : DB) (batch : List ProductRec) : List ProductRec :=
  dedupById (batch.filter (fun p => onChangeWithUniqueVariant db p))

/-- The local `templates` of `validate_unique_template` (line 190): the
template references of the unique-flagged part of the batch. -/
def batchTemplates (db : DB) (batch : List ProductRec) : List Nat :=
  (uniqueProducts db batch).map (fun p => p.templateId)

/-- `Product.validate_unique_template` (src/product.py lines 188-197).
The error is raised when two unique-flagged variants of the batch share
a template (`len(set(templates)) != len(templates)`), or when a
database search — excluding the batch's unique-flagged variants by id,
over the templates they reference — finds any other variant.  The
validator sets no transaction context of its own, so the search is
subject to the ambient `activeTest` filter. -/
def validate_unique_template (db : DB) (activeTest : Bool) (batch : List ProductRec) : Validation :=
  if (batchTemplates db batch).dedup.length != (batchTemplates db batch).length then
    Validation.templateUniqError
  else if db.products.any (fun q =>
      !((uniqueProducts db batch).any (fun p => p.id == q.id)) &&
      (batchTemplates db batch).contains q.templateId &&
      (!activeTest || q.active)) then
    Validation.templateUniqError
  else
    Validation.ok

/-- `Template.get_code` (src/product.py lines 58-68): runs with
`active_test=False`, walks the unfiltered association in default order
and returns the first variant code that is non-empty and whose variant
is active; `none` for non-unique templates. -/
def get_code (db : DB) (t : TemplateRec) : Option String :=
  if t.uniqueVariant then
    (productsOf db t.id).findSome? (fun p =>
      if p.code != "" && p.active then some p.code else none)
  else none

/-- `Template.get_rec_name` (src/product.py lines 47-51): prefix the
name with the code when the code is truthy. -/
def rec_name (db : DB) (t : TemplateRec) : String :=
  let c := (get_code db t).getD ""
  if c != "" then "[" ++ c ++ "] " ++ t.name else t.name

/-- `Template.get_attributes_string` (src/product.py lines 93-99): no
context override here — it reads the first variant of the
context-filtered association; empty for non-unique templates or when
the visible association is empty. -/
def get_attributes_string (db : DB) (activeTest : Bool) (t : TemplateRec) : String :=
  if t.uniqueVariant then
    match (visibleProducts db activeTest t.id).head? with
    | some p => p.attributes_string
    | none => ""
  else ""

/-- The collection loop of `Template.validate` (src/product.py lines
112-115): the first associated variant of each unique-flagged template
that has one. -/
def collectUniqueFirsts (db : DB) (activeTest : Bool) : List TemplateRec → List ProductRec
  | [] => []
  | t :: ts =>
    match (if t.uniqueVariant then (visibleProducts db activeTest t.id).head? else none) with
    | some p => p :: collectUniqueFirsts db activeTest ts
    | none => collectUniqueFirsts db activeTest ts

/-- `Template.validate` (src/product.py lines 108-118): forward the
collected first variants to the variant-level validator (only when the
collection is non-empty). -/
def template_validate (db : DB) (activeTest : Bool) (ts : List TemplateRec) : Validation :=
  if (collectUniqueFirsts db activeTest ts).isEmpty then Validation.ok
  else validate_unique_template db activeTest (collectUniqueFirsts db activeTest ts)

/-- `cls.products.size = If(Eval('unique_variant', False), 1, 9999999)`
(src/product.py line 32): the declared size limit of the variant
collection. -/
def products_size (t : TemplateRec) : Nat :=
  if t.uniqueVariant then 1 else 9999999

/-- One `values` dictionary of a `Template.write` call, restricted to
the `active` key this module inspects: `hasActive` models
`'active' in values`, `active` models `values['active']`. -/
structure WriteValues where
  hasActive : Bool
  active : Bool
deriving DecidableEq, Repr

/-- A template's `unique_variant` flag looked up by id (falsy when the
record is not found). -/
def templUnique (db : DB) (tid : Nat) : Bool :=
  match findTemplate db tid with
  | some t => t.uniqueVariant
  | none => false

/-- The collection loop of `Template.write` (src/product.py lines
125-139): for each `(templates, values)` pair with `'active'` in
`values`, over the unique-flagged templates of the pair, gather the
products to activate (all of them, re-browsed with `active_test=False`)
or to deactivate (only the currently active ones), from the pre-write
state. -/
def writeTargets (db : DB) : List (List Nat × WriteValues) → List ProductRec × List ProductRec
  | [] => ([], [])
  | (tids, v) :: rest =>
    if v.hasActive then
      if v.active then
        ((tids.filter (fun tid => templUnique db tid)).flatMap
            (fun tid => productsOf db tid) ++ (writeTargets db rest).1,
          (writeTargets db rest).2)
      else
        ((writeTargets db rest).1,
          (tids.filter (fun tid => templUnique db tid)).flatMap
            (fun tid => (productsOf db tid).filter (fun p => p.active))
            ++ (writeTargets db rest).2)
    else writeTargets db rest

/-- The host ORM's `Template.write`: each `(ids, values)` pair sets the
written fields (here: `active` when present) on the targeted template
records, pair by pair in order. -/
def applyTemplateWrites (db : DB) : List (List Nat × WriteValues) → DB
  | [] => db
  | (tids, v) :: rest =>
    applyTemplateWrites
      { db with templates := db.templates.map (fun t =>
          if tids.contains t.id && v.hasActive then { t with active := v.active } else t) }
      rest

/-- The host ORM's `Product.write` for an `{'active': b}` values
dictionary: set `active` on the targeted variant records. -/
def setProductsActive (db : DB) (pids : List Nat) (b : Bool) : DB :=
  { db with products := db.products.map (fun p =>
      if pids.contains p.id then { p with active := b } else p) }

/-- `Template.write` (src/product.py lines 120-148): collect the
products to (de)activate from the pre-write state, perform the template
write, then issue one batched `Product.write` holding an activate pair
and/or a deactivate pair. -/
def template_write (db : DB) (args : List (List Nat × WriteValues)) : DB :=
  let targets := writeTargets db args
  let db1 := applyTemplateWrites db args
  let db2 :=
    if targets.1.isEmpty then db1
    else setProductsActive db1 (targets.1.map (fun p => p.id)) true
  if targets.2.isEmpty then db2
  else setProductsActive db2 (targets.2.map (fun p => p.id)) false

/-- The wizard invocation context (`Transaction().context`): the keys
the adapters read and rewrite. -/
structure Ctx where
  active_model : String
  active_id : Nat
  active_ids : List Nat
deriving DecidableEq, Repr

/-- The `action` dictionary of `do_start`, restricted to the keys the
adapter rewrites. -/
structure ActionRec where
  res_model : String
  active_id : Nat
deriving DecidableEq, Repr

/-- Outcome of a BOM-tree adapter: delegation to the default handler
under a context (with a payload: the `action` for `do_start`), the
`not_product_variant` `UserError`, or a framework failure when the
subject template id matches no record. -/
inductive BomOutcome (α : Type) where
  | delegated (ctx : Ctx) (payload : α)
  | notProductVariantError (templateName : String)
  | missingTemplateError
deriving DecidableEq, Repr

/-- `OpenReverseBOMTree.do_start` (src/product.py lines 203-222): when
the subject is a template, require a variant (else raise
`not_product_variant` with the template's `rec_name`), rewrite the
context and the action to the first variant, then delegate; otherwise
delegate with context and action unchanged. -/
def do_start (db : DB) (activeTest : Bool) (ctx : Ctx) (action : ActionRec) : BomOutcome ActionRec :=
  if ctx.active_model = "product.template" then
    match findTemplate db ctx.active_id with
    | none => BomOutcome.missingTemplateError
    | some t =>
      match (visibleProducts db activeTest t.id).head? with
      | none => BomOutcome.notProductVariantError (rec_name db t)
      | some p =>
        BomOutcome.delegated
          { active_model := "product.product", active_id := p.id, active_ids := [p.id] }
          { action with res_model := "product.product", active_id := p.id }
  else BomOutcome.delegated ctx action

/-- `OpenBOMTree.default_start` (src/product.py lines 228-247): same
redirection on the context alone (the `fields` argument is passed
through untouched). -/
def default_start (db : DB) (activeTest : Bool) (ctx : Ctx) : BomOutcome Unit :=
  if ctx.active_model = "product.template" then
    match findTemplate db ctx.active_id with
    | none => BomOutcome.missingTemplateError
    | some t =>
      match (visibleProducts db activeTest t.id).head? with
      | none => BomOutcome.notProductVariantError (rec_name db t)
      | some p =>
        BomOutcome.delegated
          { active_model := "product.product", active_id := p.id, active_ids := [p.id] }
          ()
  else BomOutcome.delegated ctx ()

/-- Following the words of claim C4 / the spec: `getCode` "returns the
code of the first active variant in default association order" for a
unique-flagged template (null when that variant's code is null/empty or
no active variant exists), and null for non-unique templates. -/
def get_code_claimed (db : DB) (t : TemplateRec) : Option String :=
  if t.uniqueVariant then
    match (productsOf db t.id).find? (fun p => p.active) with
    | some p => if p.code != "" then some p.code else none
    | none => none
  else none

/-- Following the words of claim C5 / the spec: `getAttributesSummary`
"reads through to the first active variant in default association
order, evaluating with inactive records included in the lookup", empty
when all the template's variants are inactive or the template is not
unique-flagged. -/
def get_attributes_string_claimed (db : DB) (t : TemplateRec) : String :=
  if t.uniqueVariant then
    match (productsOf db t.id).find? (fun p => p.active) with
    | some p => p.attributes_string
    | none => ""
  else ""

/-- Batches of records read from one model: records with equal ids are
the same record. -/
def IdConsistent (l : List ProductRec) : Prop :=
  ∀ p ∈ l, ∀ q ∈ l, p.id = q.id → p = q

instance (l : List ProductRec) : Decidable (IdConsistent l) := by
  unfold IdConsistent
  exact List.decidableBAll _ l

/-! ## General list lemmas -/

theorem head?_filter {α : Type} (p : α → Bool) (l : List α) :
    (l.filter p).head? = l.find? p := by
  induction l with
  | nil => rfl
  | cons a l ih =>
    cases h : p a with
    | true => simp [List.filter_cons, h, List.find?_cons_of_pos _ h]
    | false =>
      have hneg : List.find? p (a :: l) = List.find? p l :=
        List.find?_cons_of_neg l (by simp [h])
      simp [List.filter_cons, h, hneg, ih]

theorem findSome?_if_eq_find?_map {α β : Type} (p : α → Bool) (f : α → β) (l : List α) :
    l.findSome? (fun a => if p a then some (f a) else none) = (l.find? p).map f := by
  induction l with
  | nil => rfl
  | cons a l ih =>
    cases h : p a with
    | true =>
      simp [List.findSome?_cons, h, List.find?_cons_of_pos _ h]
    | false =>
      have hneg : List.find? p (a :: l) = List.find? p l :=
        List.find?_cons_of_neg l (by simp [h])
      simp [List.findSome?_cons, h, hneg, ih]

theorem nodup_iff_dedup_length {α : Type} [DecidableEq α] (l : List α) :
    l.dedup.length = l.length ↔ l.Nodup := by
  constructor
  · intro h
    have he : l.dedup = l := (List.dedup_sublist l).eq_of_length h
    exact he ▸ List.nodup_dedup l
  · intro h
    rw [List.dedup_eq_self.mpr h]

/-! ## Deduplication lemmas -/

theorem mem_of_mem_dedupByIdAux {seen : List Nat} {l : List ProductRec} {x : ProductRec}
    (h : x ∈ dedupByIdAux seen l) : x ∈ l := by
  induction l generalizing seen with
  | nil => simp [dedupByIdAux] at h
  | cons a l ih =>
    by_cases hc : seen.contains a.id
    · rw [dedupByIdAux, if_pos hc] at h
      exact List.mem_cons_of_mem _ (ih h)
    · rw [dedupByIdAux, if_neg hc] at h
      rcases List.mem_cons.mp h with rfl | h'
      · exact List.mem_cons_self _ _
      · exact List.mem_cons_of_mem _ (ih h')

theorem idConsistent_sublist {l l' : List ProductRec}
    (hs : ∀ x ∈ l', x ∈ l) (h : IdConsistent l) : IdConsistent l' :=
  fun p hp q hq => h p (hs p hp) q (hs q hq)

theorem mem_dedupByIdAux_of_mem {seen : List Nat} {l : List ProductRec} {x : ProductRec}
    (hc : IdConsistent l) (hx : x ∈ l) (hs : x.id ∉ seen) :
    x ∈ dedupByIdAux seen l := by
  induction l generalizing seen with
  | nil => cases hx
  | cons a l ih =>
    have hc' : IdConsistent l :=
      idConsistent_sublist (fun y hy => List.mem_cons_of_mem _ hy) hc
    rcases List.mem_cons.mp hx with rfl | hx'
    · rw [dedupByIdAux, if_neg (by simpa using hs)]
      exact List.mem_cons_self _ _
    · by_cases hca : seen.contains a.id
      · rw [dedupByIdAux, if_pos hca]
        exact ih hc' hx' hs
      · by_cases hxa : x = a
        · rw [dedupByIdAux, if_neg hca, hxa]
          exact List.mem_cons_self _ _
        · have hid : x.id ≠ a.id := fun he =>
            hxa (hc x hx a (List.mem_cons_self _ _) he)
          have hs' : x.id ∉ (a.id :: seen) := by
            simp only [List.mem_cons, not_or]
            exact ⟨hid, hs⟩
          rw [dedupByIdAux, if_neg hca]
          exact List.mem_cons_of_mem _ (ih hc' hx' hs')

/-! ## Basic facts about the validator's locals -/

theorem mem_batch_of_mem_uniqueProducts {db : DB} {batch : List ProductRec} {p : ProductRec}
    (hp : p ∈ uniqueProducts db batch) :
    p ∈ batch ∧ onChangeWithUniqueVariant db p = true :=
  List.mem_filter.mp (mem_of_mem_dedupByIdAux hp)

theorem mem_uniqueProducts_of_mem {db : DB} {batch : List ProductRec} {p : ProductRec}
    (hc : IdConsistent batch) (hp : p ∈ batch)
    (hu : onChangeWithUniqueVariant db p = true) :
    p ∈ uniqueProducts db batch := by
  have hcf : IdConsistent (batch.filter (fun x => onChangeWithUniqueVariant db x)) :=
    idConsistent_sublist (fun y hy => List.mem_of_mem_filter hy) hc
  exact mem_dedupByIdAux_of_mem hcf (List.mem_filter.mpr ⟨hp, hu⟩) (List.not_mem_nil _)

/-- The two `raise` sites of `validate_unique_template`, as one
characterization of the non-raising runs. -/
theorem validate_unique_template_ok_iff (db : DB) (a : Bool) (batch : List ProductRec) :
    validate_unique_template db a batch = Validation.ok ↔
      (batchTemplates db batch).Nodup ∧
      ∀ q ∈ db.products, (∀ p ∈ uniqueProducts db batch, p.id ≠ q.id) →
        q.templateId ∈ batchTemplates db batch → (!a || q.active) = true → False := by
  unfold validate_unique_template
  split_ifs with h1 h2
  · constructor
    · intro h; exact absurd h (by simp)
    · rintro ⟨hnd, -⟩
      have hlen := (nodup_iff_dedup_length (batchTemplates db batch)).mpr hnd
      simp [hlen] at h1
  · constructor
    · intro h; exact absurd h (by simp)
    · rintro ⟨-, hall⟩
      rcases List.any_eq_true.mp h2 with ⟨q, hq, hcond⟩
      simp only [Bool.and_eq_true, Bool.not_eq_true'] at hcond
      obtain ⟨⟨hip, hmem⟩, hact⟩ := hcond
      refine hall q hq ?_ (by simpa using hmem) hact
      intro p hp
      have hfalse := List.any_eq_false.mp hip p hp
      simpa using hfalse
  · constructor
    · intro _
      refine ⟨?_, ?_⟩
      · have hlen : (batchTemplates db batch).dedup.length
            = (batchTemplates db batch).length := by simpa using h1
        exact (nodup_iff_dedup_length _).mp hlen
      · intro q hq hip hmem hact
        apply h2
        refine List.any_eq_true.mpr ⟨q, hq, ?_⟩
        simp only [Bool.and_eq_true, Bool.not_eq_true']
        refine ⟨⟨List.any_eq_false.mpr ?_, by simpa using hmem⟩, hact⟩
        intro p hp
        simpa using hip p hp
    · intro _; rfl

theorem validation_eq_error_of_ne_ok {v : Validation}
    (h : v ≠ Validation.ok) : v = Validation.templateUniqError := by
  cases v
  · exact absurd rfl h
  · rfl

/-- A hit of the validator's database search forces the error. -/
theorem validator_error_of_search_hit (db : DB) (a : Bool) (batch : List ProductRec)
    (q : ProductRec) (hc : IdConsistent batch) (hq : q ∈ db.products)
    (hid : ∀ p ∈ batch, onChangeWithUniqueVariant db p = true → p.id ≠ q.id)
    (hex : ∃ p ∈ batch, onChangeWithUniqueVariant db p = true ∧ p.templateId = q.templateId)
    (hact : (!a || q.active) = true) :
    validate_unique_template db a batch = Validation.templateUniqError := by
  apply validation_eq_error_of_ne_ok
  intro hok
  obtain ⟨-, hall⟩ := (validate_unique_template_ok_iff db a batch).mp hok
  rcases hex with ⟨p, hp, hpu, hpt⟩
  refine hall q hq ?_ ?_ hact
  · intro r hr
    obtain ⟨hrb, hru⟩ := mem_batch_of_mem_uniqueProducts hr
    exact hid r hrb hru
  · exact hpt ▸ List.mem_map.mpr
      ⟨p, mem_uniqueProducts_of_mem hc hp hpu, rfl⟩

/-- Two distinct unique-flagged batch members sharing a template force
the error. -/
theorem validator_error_of_batch_duplicate (db : DB) (a : Bool) (batch : List ProductRec)
    (p q : ProductRec) (hc : IdConsistent batch)
    (hp : p ∈ batch) (hq : q ∈ batch) (hne : p ≠ q)
    (hpu : onChangeWithUniqueVariant db p = true)
    (hqu : onChangeWithUniqueVariant db q = true)
    (ht : p.templateId = q.templateId) :
    validate_unique_template db a batch = Validation.templateUniqError := by
  apply validation_eq_error_of_ne_ok
  intro hok
  obtain ⟨hnd, -⟩ := (validate_unique_template_ok_iff db a batch).mp hok
  exact hne (List.inj_on_of_nodup_map hnd
    (mem_uniqueProducts_of_mem hc hp hpu)
    (mem_uniqueProducts_of_mem hc hq hqu) ht)

/-! ## Concrete fixtures (the reference test's scenario and variations):
template `A` (id 2) is not unique-flagged, template `B` (id 1) is. -/

def tU : TemplateRec := { id := 1, name := "B", uniqueVariant := true, active := true }

def tN : TemplateRec := { id := 2, name := "A", uniqueVariant := false, active := true }

def v1 : ProductRec :=
  { id := 1, templateId := 2, code := "1", active := true, attributes_string := "a1" }

def v2 : ProductRec :=
  { id := 2, templateId := 1, code := "2", active := true, attributes_string := "a2" }

def v3 : ProductRec :=
  { id := 3, templateId := 1, code := "3", active := true, attributes_string := "a3" }

def v4 : ProductRec :=
  { id := 4, templateId := 1, code := "", active := true, attributes_string := "" }

def v5 : ProductRec :=
  { id := 5, templateId := 1, code := "5", active := false, attributes_string := "A" }

/-! ## C1 -/

/-- C1 (counterexample): the batch's variant (id 3) references the
unique-flagged template 1, the database holds another variant (id 2) of
template 1 that is not in the batch and is inactive, yet the validator
returns normally under the default context: its search does not include
inactive records (the source sets no `active_test=False` context in
`validate_unique_template`, unlike `get_code` and `Template.write`). -/
theorem validator_misses_inactive_conflict_cex :
    validate_unique_template
        { templates := [tU],
          products := [{ id := 2, templateId := 1, code := "2", active := false,
                         attributes_string := "a2" }, v3] }
        true [v3] = Validation.ok
      ∧ onChangeWithUniqueVariant
          { templates := [tU],
            products := [{ id := 2, templateId := 1, code := "2", active := false,
                           attributes_string := "a2" }, v3] } v3 = true
      ∧ (2 : Nat) ≠ v3.id := by decide

/-- C1 (amended): the validator's database search runs under the ambient
`active_test` context instead of explicitly including inactive records.
Under the default context a conflicting pre-existing ACTIVE variant not
in the batch raises the uniqueness-violation error; an inactive conflict
raises it only under a context that already includes inactive records. -/
theorem validator_search_under_ambient_context :
    (∀ (db : DB) (batch : List ProductRec) (q : ProductRec),
      IdConsistent batch → q ∈ db.products → q.active = true →
      (∀ p ∈ batch, p.id ≠ q.id) →
      (∃ p ∈ batch, onChangeWithUniqueVariant db p = true ∧ p.templateId = q.templateId) →
      validate_unique_template db true batch = Validation.templateUniqError)
    ∧ (∀ (db : DB) (batch : List ProductRec) (q : ProductRec),
      IdConsistent batch → q ∈ db.products →
      (∀ p ∈ batch, p.id ≠ q.id) →
      (∃ p ∈ batch, onChangeWithUniqueVariant db p = true ∧ p.templateId = q.templateId) →
      validate_unique_template db false batch = Validation.templateUniqError) := by
  constructor
  · intro db batch q hc hq hact hid hex
    exact validator_error_of_search_hit db true batch q hc hq
      (fun p hp _ => hid p hp) hex (by simp [hact])
  · intro db batch q hc hq hid hex
    exact validator_error_of_search_hit db false batch q hc hq
      (fun p hp _ => hid p hp) hex (by simp)

/-- C1 (witness): an active conflict (variant 2) blocks creating variant
3 under the default context, and the inactive variant 5 blocks it only
under an inactive-inclusive context. -/
theorem validator_search_under_ambient_context_witness :
    validate_unique_template { templates := [tU], products := [v2, v3] } true [v3]
        = Validation.templateUniqError
    ∧ validate_unique_template { templates := [tU], products := [v5, v3] } false [v3]
        = Validation.templateUniqError :=
  ⟨validator_search_under_ambient_context.1
      { templates := [tU], products := [v2, v3] } [v3] v2
      (by decide) (by decide) (by decide) (by decide)
      ⟨v3, by decide, by decide, by decide⟩,
    validator_search_under_ambient_context.2
      { templates := [tU], products := [v5, v3] } [v3] v5
      (by decide) (by decide) (by decide)
      ⟨v3, by decide, by decide, by decide⟩⟩

/-! ## C2 -/

/-- C2: the variant-level validator raises the uniqueness-violation
error whenever two distinct unique-flagged variants of the batch
reference the same template, and also whenever the database search —
excluding the batch's unique-flagged variants by id — finds any other
variant referencing one of those templates. -/
theorem batch_duplicate_or_search_hit_raises
    (db : DB) (a : Bool) (batch : List ProductRec) (hc : IdConsistent batch) :
    ((∃ p ∈ batch, ∃ q ∈ batch, p ≠ q ∧
        onChangeWithUniqueVariant db p = true ∧ onChangeWithUniqueVariant db q = true ∧
        p.templateId = q.templateId) ∨
      (∃ r ∈ db.products,
        (∀ p ∈ batch, onChangeWithUniqueVariant db p = true → p.id ≠ r.id) ∧
        (∃ p ∈ batch, onChangeWithUniqueVariant db p = true ∧ p.templateId = r.templateId) ∧
        (!a || r.active) = true)) →
    validate_unique_template db a batch = Validation.templateUniqError := by
  rintro (⟨p, hp, q, hq, hne, hpu, hqu, ht⟩ | ⟨r, hr, hid, hex, hact⟩)
  · exact validator_error_of_batch_duplicate db a batch p q hc hp hq hne hpu hqu ht
  · exact validator_error_of_search_hit db a batch r hc hr hid hex hact

/-- C2 (witness): the reference test's failing batch — two new variants
(ids 3 and 4) of the unique-flagged template in one batch. -/
theorem batch_duplicate_or_search_hit_raises_witness :
    validate_unique_template { templates := [tN, tU], products := [v1, v2, v3, v4] }
        true [v3, v4] = Validation.templateUniqError :=
  batch_duplicate_or_search_hit_raises
    { templates := [tN, tU], products := [v1, v2, v3, v4] } true [v3, v4]
    (by decide)
    (Or.inl ⟨v3, by decide, v4, by decide, by decide, by decide, by decide, by decide⟩)

/-! ## C3 -/

/-- C3: validating any batch of variants that all reference a template
whose `unique_variant` flag is false never raises the
uniqueness-violation error: such variants are dropped before the
duplicate check and the database search. -/
theorem nonunique_template_batch_never_raises
    (db : DB) (a : Bool) (t : TemplateRec) (batch : List ProductRec)
    (hf : findTemplate db t.id = some t)
    (hu : t.uniqueVariant = false)
    (hb : ∀ p ∈ batch, p.templateId = t.id) :
    validate_unique_template db a batch = Validation.ok := by
  have hfilter : batch.filter (fun p => onChangeWithUniqueVariant db p) = [] := by
    rw [List.filter_eq_nil_iff]
    intro p hp
    have hoff : onChangeWithUniqueVariant db p = false := by
      simp [onChangeWithUniqueVariant, hb p hp, hf, hu]
    simp [hoff]
  have hup : uniqueProducts db batch = [] := by
    unfold uniqueProducts
    rw [hfilter]
    rfl
  rw [validate_unique_template_ok_iff]
  refine ⟨by simp [batchTemplates, hup], ?_⟩
  intro q hq hip hmem hact
  simp [batchTemplates, hup] at hmem

/-- C3 (witness): the reference test's non-unique template `A` accepts
its batch. -/
theorem nonunique_template_batch_never_raises_witness :
    validate_unique_template { templates := [tN, tU], products := [v1, v2] } true [v1]
        = Validation.ok :=
  nonunique_template_batch_never_raises
    { templates := [tN, tU], products := [v1, v2] } true tN [v1]
    (by decide) (by decide) (by decide)

/-! ## C4, C10: the `get_code` read-through -/

theorem find?_append_cons {α : Type} (pred : α → Bool) (l1 l2 : List α) (p : α)
    (h1 : ∀ q ∈ l1, pred q = false) (hp : pred p = true) :
    (l1 ++ p :: l2).find? pred = some p := by
  induction l1 with
  | nil => simpa using List.find?_cons_of_pos l2 hp
  | cons a l ih =>
    have ha := h1 a (List.mem_cons_self _ _)
    rw [List.cons_append, List.find?_cons_of_neg _ (by simp [ha])]
    exact ih fun q hq => h1 q (List.mem_cons_of_mem _ hq)

/-- The `for`/`break` loop of `get_code` as a `find?`. -/
theorem get_code_as_find? (db : DB) (t : TemplateRec) :
    get_code db t =
      if t.uniqueVariant then
        ((productsOf db t.id).find? (fun p => p.code != "" && p.active)).map
          (fun p => p.code)
      else none := by
  unfold get_code
  split_ifs with h
  · exact findSome?_if_eq_find?_map _ _ _
  · rfl

/-- C4 (counterexample): unique-flagged template whose FIRST active
variant (id 4) has an empty code while a later active variant (id 2) is
coded: `get_code` returns the later code `"2"`, not the first active
variant's (null) code as the claim reads. -/
theorem get_code_first_active_cex :
    get_code { templates := [tU], products := [v4, v2] } tU = some "2"
    ∧ get_code_claimed { templates := [tU], products := [v4, v2] } tU = none
    ∧ (productsOf { templates := [tU], products := [v4, v2] } tU.id).find?
        (fun p => p.active) = some v4
    ∧ v4.code = "" ∧ v4.active = true := by decide

/-- C4 (amended): for a unique-flagged template `get_code` returns the
code of the first variant — in the inactive-inclusive association order
— that is active AND has a non-empty code (null when there is none); it
returns null for every template with `unique_variant = false`
regardless of its variants' codes. -/
theorem get_code_first_active_coded (db : DB) (t : TemplateRec) :
    get_code db t =
      if t.uniqueVariant then
        ((productsOf db t.id).find? (fun p => p.code != "" && p.active)).map
          (fun p => p.code)
      else none :=
  get_code_as_find? db t

/-- C10: `get_code` skips active variants with a null/empty code — when
every variant before `p` is inactive or code-less and `p` is active with
a non-empty code, the result is `p`'s code — and it is null exactly when
no active variant with a non-empty code exists. -/
theorem get_code_skips_codeless_actives (db : DB) (t : TemplateRec)
    (hu : t.uniqueVariant = true) :
    (∀ (l1 : List ProductRec) (p : ProductRec) (l2 : List ProductRec),
      productsOf db t.id = l1 ++ p :: l2 →
      (∀ q ∈ l1, q.active = true → q.code = "") →
      p.active = true → p.code ≠ "" →
      get_code db t = some p.code)
    ∧ (get_code db t = none ↔
        ∀ q ∈ productsOf db t.id, q.active = true → q.code = "") := by
  have hbool : ∀ q : ProductRec,
      (¬((q.code != "" && q.active) = true)) ↔ (q.active = true → q.code = "") := by
    intro q
    cases hq : q.active <;> simp [hq]
  rw [get_code_as_find?, if_pos hu]
  constructor
  · intro l1 p l2 hdec hl1 hact hcode
    rw [hdec, find?_append_cons _ l1 l2 p ?_ ?_]
    · rfl
    · intro q hq
      have := (hbool q).mpr fun ha => hl1 q hq ha
      revert this
      cases hb : (q.code != "" && q.active) <;> simp
    · simp [hact, hcode]
  · rw [Option.map_eq_none']
    rw [List.find?_eq_none]
    constructor
    · intro h q hq
      exact (hbool q).mp (h q hq)
    · intro h q hq
      exact (hbool q).mpr (h q hq)

/-- C10 (witness): template `B` with variants `[v4, v2]` — `v4` active
but code-less, `v2` active with code `"2"` — yields `"2"`. -/
theorem get_code_skips_codeless_actives_witness :
    get_code { templates := [tU], products := [v4, v2] } tU = some v2.code :=
  (get_code_skips_codeless_actives { templates := [tU], products := [v4, v2] } tU
      (by decide)).1
    [v4] v2 [] (by decide) (by decide) (by decide) (by decide)

/-! ## C5: the `get_attributes_string` read-through -/

/-- C5 (counterexample): with inactive records included in the lookup —
as the claim says the function evaluates — `get_attributes_string` reads
the FIRST variant `v5`, which is inactive (attributes `"A"`), not the
first active variant `v2` (attributes `"a2"`): the source has no
`active_test=False` override and no activity check in this getter. -/
theorem get_attributes_string_first_active_cex :
    get_attributes_string { templates := [tU], products := [v5, v2] } false tU = "A"
    ∧ get_attributes_string_claimed { templates := [tU], products := [v5, v2] } tU = "a2"
    ∧ v5.active = false ∧ v2.active = true := by decide

/-- C5 (amended): `get_attributes_string` reads the first variant of the
ambient-context association; under the DEFAULT (active-filtered) context
this coincides with the claimed read-through to the first active variant
— empty when all variants are inactive and for non-unique templates —
but the function does not itself include inactive records in the
lookup. -/
theorem get_attributes_string_default_context (db : DB) (t : TemplateRec) :
    get_attributes_string db true t = get_attributes_string_claimed db t := by
  have hv : visibleProducts db true t.id
      = (productsOf db t.id).filter (fun p => p.active) := by
    unfold visibleProducts
    simp only [Bool.not_true, Bool.false_or]
  unfold get_attributes_string get_attributes_string_claimed
  rw [hv, head?_filter]

/-! ## C6, C7: the BOM-tree redirect adapters -/

/-- C6 (counterexample): the adapters never read the `unique_variant`
flag — invoked on the NON-unique template `A` (id 2, one variant id 1),
both rewrite the invocation to that variant instead of delegating with
the context unchanged as the claim states. -/
theorem bom_redirect_ignores_unique_flag_cex :
    tN.uniqueVariant = false
    ∧ default_start { templates := [tN], products := [v1] } true
        { active_model := "product.template", active_id := 2, active_ids := [2] }
      = BomOutcome.delegated
          { active_model := "product.product", active_id := 1, active_ids := [1] } ()
    ∧ ({ active_model := "product.product", active_id := 1, active_ids := [1] } : Ctx)
        ≠ { active_model := "product.template", active_id := 2, active_ids := [2] }
    ∧ do_start { templates := [tN], products := [v1] } true
        { active_model := "product.template", active_id := 2, active_ids := [2] }
        { res_model := "production.bom.reverse_tree", active_id := 2 }
      = BomOutcome.delegated
          { active_model := "product.product", active_id := 1, active_ids := [1] }
          { res_model := "product.product", active_id := 1 } := by decide

/-- C6 (amended): both adapters rewrite the invocation to the
template's first (visible) variant whenever the subject is a template —
whether or not the template is unique-flagged; the context (and action)
pass through unchanged exactly when the subject is not a template. -/
theorem bom_redirect_on_any_template :
    (∀ (db : DB) (a : Bool) (ctx : Ctx) (action : ActionRec),
      ctx.active_model ≠ "product.template" →
      do_start db a ctx action = BomOutcome.delegated ctx action
      ∧ default_start db a ctx = BomOutcome.delegated ctx ())
    ∧ (∀ (db : DB) (a : Bool) (ctx : Ctx) (action : ActionRec)
        (t : TemplateRec) (p : ProductRec),
      ctx.active_model = "product.template" →
      findTemplate db ctx.active_id = some t →
      (visibleProducts db a t.id).head? = some p →
      do_start db a ctx action
        = BomOutcome.delegated
            { active_model := "product.product", active_id := p.id, active_ids := [p.id] }
            { action with res_model := "product.product", active_id := p.id }
      ∧ default_start db a ctx
        = BomOutcome.delegated
            { active_model := "product.product", active_id := p.id, active_ids := [p.id] }
            ()) := by
  constructor
  · intro db a ctx action h
    unfold do_start default_start
    rw [if_neg h, if_neg h]
    exact ⟨rfl, rfl⟩
  · intro db a ctx action t p hm hf hp
    constructor
    · unfold do_start
      simp [hm, hf, hp]
    · unfold default_start
      simp [hm, hf, hp]

/-- C6 (witness): a non-template subject passes through unchanged, and
a template subject (the unique template `B` with variant id 2) is
rewritten to its variant. -/
theorem bom_redirect_on_any_template_witness :
    (do_start { templates := [tU], products := [v2] } true
        { active_model := "product.product", active_id := 2, active_ids := [2] }
        { res_model := "production.bom.reverse_tree", active_id := 2 }
      = BomOutcome.delegated
          { active_model := "product.product", active_id := 2, active_ids := [2] }
          { res_model := "production.bom.reverse_tree", active_id := 2 }
      ∧ default_start { templates := [tU], products := [v2] } true
          { active_model := "product.product", active_id := 2, active_ids := [2] }
        = BomOutcome.delegated
            { active_model := "product.product", active_id := 2, active_ids := [2] } ())
    ∧ (do_start { templates := [tU], products := [v2] } true
        { active_model := "product.template", active_id := 1, active_ids := [1] }
        { res_model := "production.bom.reverse_tree", active_id := 1 }
      = BomOutcome.delegated
          { active_model := "product.product", active_id := 2, active_ids := [2] }
          { res_model := "product.product", active_id := 2 }
      ∧ default_start { templates := [tU], products := [v2] } true
          { active_model := "product.template", active_id := 1, active_ids := [1] }
        = BomOutcome.delegated
            { active_model := "product.product", active_id := 2, active_ids := [2] } ()) :=
  ⟨bom_redirect_on_any_template.1 { templates := [tU], products := [v2] } true
      { active_model := "product.product", active_id := 2, active_ids := [2] }
      { res_model := "production.bom.reverse_tree", active_id := 2 } (by decide),
    bom_redirect_on_any_template.2 { templates := [tU], products := [v2] } true
      { active_model := "product.template", active_id := 1, active_ids := [1] }
      { res_model := "production.bom.reverse_tree", active_id := 1 } tU v2
      (by decide) (by decide) (by decide)⟩

/-- C7: when the subject is a template with zero associated variants,
both adapters raise the `not_product_variant` error parameterized with
the template's display name (`rec_name`), without delegating. -/
theorem bom_no_variant_error (db : DB) (a : Bool) (ctx : Ctx) (action : ActionRec)
    (t : TemplateRec)
    (hm : ctx.active_model = "product.template")
    (hf : findTemplate db ctx.active_id = some t)
    (h0 : productsOf db t.id = []) :
    do_start db a ctx action = BomOutcome.notProductVariantError (rec_name db t)
    ∧ default_start db a ctx = BomOutcome.notProductVariantError (rec_name db t) := by
  have hv : (visibleProducts db a t.id).head? = none := by
    unfold visibleProducts
    rw [h0]
    rfl
  constructor
  · unfold do_start
    simp [hm, hf, hv]
  · unfold default_start
    simp [hm, hf, hv]

/-- C7 (witness): the unique template `B` with zero variants makes both
adapters fail naming `B`. -/
theorem bom_no_variant_error_witness :
    do_start { templates := [tU], products := [] } true
        { active_model := "product.template", active_id := 1, active_ids := [1] }
        { res_model := "production.bom.reverse_tree", active_id := 1 }
      = BomOutcome.notProductVariantError "B"
    ∧ default_start { templates := [tU], products := [] } true
        { active_model := "product.template", active_id := 1, active_ids := [1] }
      = BomOutcome.notProductVariantError "B" :=
  bom_no_variant_error { templates := [tU], products := [] } true
    { active_model := "product.template", active_id := 1, active_ids := [1] }
    { res_model := "production.bom.reverse_tree", active_id := 1 } tU
    (by decide) (by decide) (by decide)

/-! ## C9: size limit and template-level forwarding -/

theorem collectUniqueFirsts_eq_filterMap (db : DB) (a : Bool) (ts : List TemplateRec) :
    collectUniqueFirsts db a ts
      = ts.filterMap (fun t =>
          if t.uniqueVariant then (visibleProducts db a t.id).head? else none) := by
  induction ts with
  | nil => rfl
  | cons t ts ih =>
    cases h : (if t.uniqueVariant then (visibleProducts db a t.id).head? else none) with
    | none => simp [collectUniqueFirsts, h, List.filterMap_cons, ih]
    | some p => simp [collectUniqueFirsts, h, List.filterMap_cons, ih]

theorem validate_unique_template_nil (db : DB) (a : Bool) :
    validate_unique_template db a [] = Validation.ok := by
  rw [validate_unique_template_ok_iff]
  refine ⟨by simp [batchTemplates, uniqueProducts, dedupById, dedupByIdAux], ?_⟩
  intro q hq hip hmem hact
  simp [batchTemplates, uniqueProducts, dedupById, dedupByIdAux] at hmem

/-- C9: the declared size limit of a template's variant collection is 1
when `unique_variant` is set and the unbounded sentinel 9999999
otherwise; and `Template.validate` equals running the variant-level
validator on exactly the first variant of each unique-flagged template
that has one. -/
theorem products_size_and_validate_forwarding :
    (∀ t : TemplateRec, t.uniqueVariant = true → products_size t = 1)
    ∧ (∀ t : TemplateRec, t.uniqueVariant = false → products_size t = 9999999)
    ∧ (∀ (db : DB) (a : Bool) (ts : List TemplateRec),
        template_validate db a ts
          = validate_unique_template db a
              (ts.filterMap (fun t =>
                if t.uniqueVariant then (visibleProducts db a t.id).head? else none))) := by
  refine ⟨fun t h => by simp [products_size, h],
    fun t h => by simp [products_size, h], ?_⟩
  intro db a ts
  unfold template_validate
  rw [collectUniqueFirsts_eq_filterMap]
  split_ifs with h
  · rw [List.isEmpty_iff.mp h]
    exact (validate_unique_template_nil db a).symm
  · rfl

/-- C9 (witness): sizes of the two fixture templates, and the
forwarding equation on the reference test's database. -/
theorem products_size_and_validate_forwarding_witness :
    products_size tU = 1 ∧ products_size tN = 9999999
    ∧ template_validate { templates := [tN, tU], products := [v1, v2] } true [tN, tU]
        = validate_unique_template { templates := [tN, tU], products := [v1, v2] } true
            ([tN, tU].filterMap (fun t =>
              if t.uniqueVariant then
                (visibleProducts { templates := [tN, tU], products := [v1, v2] } true
                  t.id).head?
              else none)) :=
  ⟨products_size_and_validate_forwarding.1 tU (by decide),
    products_size_and_validate_forwarding.2.1 tN (by decide),
    products_size_and_validate_forwarding.2.2
      { templates := [tN, tU], products := [v1, v2] } true [tN, tU]⟩

/-! ## C8: propagation of `active` from a template to its variants -/

theorem mem_productsOf {db : DB} {tid : Nat} {q : ProductRec} :
    q ∈ productsOf db tid ↔ q ∈ db.products ∧ q.templateId = tid := by
  simp [productsOf]

theorem applyTemplateWrites_products (db : DB) (args : List (List Nat × WriteValues)) :
    (applyTemplateWrites db args).products = db.products := by
  induction args generalizing db with
  | nil => rfl
  | cons g rest ih =>
    cases g with
    | mk tids v => exact ih _

/-- The accumulated effect of all the `(templates, values)` pairs of one
write on a single template record, pair by pair in order. -/
def applyGroupsToTemplate (t : TemplateRec) : List (List Nat × WriteValues) → TemplateRec
  | [] => t
  | (tids, v) :: rest =>
    applyGroupsToTemplate
      (if tids.contains t.id && v.hasActive then { t with active := v.active } else t) rest

theorem applyGroupsToTemplate_id (t : TemplateRec) (args : List (List Nat × WriteValues)) :
    (applyGroupsToTemplate t args).id = t.id := by
  induction args generalizing t with
  | nil => rfl
  | cons g rest ih =>
    cases g with
    | mk tids v =>
      rw [applyGroupsToTemplate, ih]
      split <;> rfl

theorem applyTemplateWrites_templates (db : DB) (args : List (List Nat × WriteValues)) :
    (applyTemplateWrites db args).templates
      = db.templates.map (fun t => applyGroupsToTemplate t args) := by
  induction args generalizing db with
  | nil =>
    simp [applyTemplateWrites, applyGroupsToTemplate]
  | cons g rest ih =>
    cases g with
    | mk tids v =>
      rw [applyTemplateWrites, ih, List.map_map]
      rfl

theorem applyGroupsToTemplate_untouched (t : TemplateRec)
    (l : List (List Nat × WriteValues)) (h : ∀ g ∈ l, t.id ∉ g.1) :
    applyGroupsToTemplate t l = t := by
  induction l with
  | nil => rfl
  | cons g rest ih =>
    cases g with
    | mk tids v =>
      have hni : t.id ∉ tids := h _ (List.mem_cons_self _ _)
      have hc : tids.contains t.id = false := by simpa using hni
      rw [applyGroupsToTemplate]
      simp only [hc, Bool.false_and, Bool.false_eq_true, if_false]
      exact ih fun g hg => h g (List.mem_cons_of_mem _ hg)

theorem applyGroupsToTemplate_append (t : TemplateRec)
    (l1 l2 : List (List Nat × WriteValues)) :
    applyGroupsToTemplate t (l1 ++ l2)
      = applyGroupsToTemplate (applyGroupsToTemplate t l1) l2 := by
  induction l1 generalizing t with
  | nil => rfl
  | cons g rest ih =>
    cases g with
    | mk tids v =>
      rw [List.cons_append, applyGroupsToTemplate, applyGroupsToTemplate]
      exact ih _

theorem applyGroupsToTemplate_active (t : TemplateRec)
    (l1 l2 : List (List Nat × WriteValues)) (tids : List Nat) (v : WriteValues)
    (h1 : ∀ g ∈ l1, t.id ∉ g.1) (h2 : ∀ g ∈ l2, t.id ∉ g.1)
    (ht : t.id ∈ tids) (hv : v.hasActive = true) :
    (applyGroupsToTemplate t (l1 ++ (tids, v) :: l2)).active = v.active := by
  rw [applyGroupsToTemplate_append, applyGroupsToTemplate_untouched t l1 h1,
    applyGroupsToTemplate]
  have hc : tids.contains t.id = true := by simpa using ht
  simp only [hc, hv, Bool.true_and, if_true]
  rw [applyGroupsToTemplate_untouched { t with active := v.active } l2
    (fun g hg => h2 g hg)]

theorem setProductsActive_nil (db : DB) (b : Bool) :
    setProductsActive db [] b = db := by
  unfold setProductsActive
  have : db.products.map (fun p =>
      if List.contains [] p.id then { p with active := b } else p) = db.products := by
    apply List.map_congr_left ?_ |>.trans (List.map_id _)
    intro p hp
    rfl
  rw [this]

/-- The two guarded `Product.write` pairs collapse to two unconditional
batched updates. -/
theorem template_write_eq (db : DB) (args : List (List Nat × WriteValues)) :
    template_write db args
      = setProductsActive
          (setProductsActive (applyTemplateWrites db args)
            ((writeTargets db args).1.map (fun p => p.id)) true)
          ((writeTargets db args).2.map (fun p => p.id)) false := by
  simp only [template_write]
  by_cases h1 : (writeTargets db args).1.isEmpty
  · by_cases h2 : (writeTargets db args).2.isEmpty
    · rw [if_pos h1, if_pos h2, List.isEmpty_iff.mp h1, List.isEmpty_iff.mp h2]
      simp [setProductsActive_nil]
    · rw [if_pos h1, if_neg h2, List.isEmpty_iff.mp h1]
      simp [setProductsActive_nil]
  · by_cases h2 : (writeTargets db args).2.isEmpty
    · rw [if_neg h1, if_pos h2, List.isEmpty_iff.mp h2]
      simp [setProductsActive_nil]
    · rw [if_neg h1, if_neg h2]

theorem productUpdate_comp (A D : List Nat) (p : ProductRec) :
    ((fun q => if D.contains q.id then { q with active := false } else q) ∘
      (fun q => if A.contains q.id then { q with active := true } else q)) p
    = if D.contains p.id then { p with active := false }
      else if A.contains p.id then { p with active := true } else p := by
  cases hA : A.contains p.id <;> cases hD : D.contains p.id <;>
    simp only [Function.comp_apply, hA, hD, Bool.false_eq_true, eq_self_iff_true,
      if_true, if_false]

theorem template_write_templates (db : DB) (args : List (List Nat × WriteValues)) :
    (template_write db args).templates
      = db.templates.map (fun t => applyGroupsToTemplate t args) := by
  rw [template_write_eq]
  exact applyTemplateWrites_templates db args

theorem template_write_products (db : DB) (args : List (List Nat × WriteValues)) :
    (template_write db args).products
      = db.products.map (fun p =>
          if ((writeTargets db args).2.map (fun r => r.id)).contains p.id then
            { p with active := false }
          else if ((writeTargets db args).1.map (fun r => r.id)).contains p.id then
            { p with active := true }
          else p) := by
  rw [template_write_eq]
  show (((applyTemplateWrites db args).products.map _).map _) = _
  rw [applyTemplateWrites_products, List.map_map]
  apply List.map_congr_left
  intro p hp
  exact productUpdate_comp _ _ p

theorem mem_writeTargets_fst (db : DB) (args : List (List Nat × WriteValues))
    (q : ProductRec) :
    q ∈ (writeTargets db args).1 ↔
      ∃ g ∈ args, g.2.hasActive = true ∧ g.2.active = true ∧
        ∃ tid ∈ g.1, templUnique db tid = true ∧ q ∈ productsOf db tid := by
  induction args with
  | nil => simp [writeTargets]
  | cons g rest ih =>
    cases g with
    | mk tids v =>
      by_cases hA : v.hasActive = true
      · by_cases hAc : v.active = true
        · simp only [writeTargets, hA, hAc, eq_self_iff_true, if_true,
            List.mem_append, List.mem_flatMap, List.mem_filter, ih, List.mem_cons]
          constructor
          · rintro (⟨tid, ⟨htid, hut⟩, hq⟩ | ⟨g', hg', hrest⟩)
            · exact ⟨(tids, v), Or.inl rfl, hA, hAc, tid, htid, hut, hq⟩
            · exact ⟨g', Or.inr hg', hrest⟩
          · rintro ⟨g', rfl | hg'mem, hga, hgac, tid, htid, hut, hq⟩
            · exact Or.inl ⟨tid, ⟨htid, hut⟩, hq⟩
            · exact Or.inr ⟨g', hg'mem, hga, hgac, tid, htid, hut, hq⟩
        · have hAc' : v.active = false := by simpa using hAc
          simp only [writeTargets, hA, hAc', eq_self_iff_true, if_true,
            Bool.false_eq_true, if_false, ih, List.mem_cons]
          constructor
          · rintro ⟨g', hg', hrest⟩
            exact ⟨g', Or.inr hg', hrest⟩
          · rintro ⟨g', rfl | hg'mem, hga, hgac, hrest⟩
            · exact absurd hgac (by simp [hAc'])
            · exact ⟨g', hg'mem, hga, hgac, hrest⟩
      · have hA' : v.hasActive = false := by simpa using hA
        simp only [writeTargets, hA', Bool.false_eq_true, if_false, ih, List.mem_cons]
        constructor
        · rintro ⟨g', hg', hrest⟩
          exact ⟨g', Or.inr hg', hrest⟩
        · rintro ⟨g', rfl | hg'mem, hga, hrest⟩
          · exact absurd hga (by simp [hA'])
          · exact ⟨g', hg'mem, hga, hrest⟩

theorem mem_writeTargets_snd (db : DB) (args : List (List Nat × WriteValues))
    (q : ProductRec) :
    q ∈ (writeTargets db args).2 ↔
      ∃ g ∈ args, g.2.hasActive = true ∧ g.2.active = false ∧
        ∃ tid ∈ g.1, templUnique db tid = true ∧
          q ∈ productsOf db tid ∧ q.active = true := by
  induction args with
  | nil => simp [writeTargets]
  | cons g rest ih =>
    cases g with
    | mk tids v =>
      by_cases hA : v.hasActive = true
      · by_cases hAc : v.active = true
        · simp only [writeTargets, hA, hAc, eq_self_iff_true, if_true, ih, List.mem_cons]
          constructor
          · rintro ⟨g', hg', hrest⟩
            exact ⟨g', Or.inr hg', hrest⟩
          · rintro ⟨g', rfl | hg'mem, hga, hgac, hrest⟩
            · exact absurd hgac (by simp [hAc])
            · exact ⟨g', hg'mem, hga, hgac, hrest⟩
        · have hAc' : v.active = false := by simpa using hAc
          simp only [writeTargets, hA, hAc', eq_self_iff_true, if_true,
            Bool.false_eq_true, if_false, List.mem_append, List.mem_flatMap,
            List.mem_filter, ih, List.mem_cons]
          constructor
          · rintro (⟨tid, ⟨htid, hut⟩, hq, hqa⟩ | ⟨g', hg', hrest⟩)
            · exact ⟨(tids, v), Or.inl rfl, hA, hAc', tid, htid, hut, hq, hqa⟩
            · exact ⟨g', Or.inr hg', hrest⟩
          · rintro ⟨g', rfl | hg'mem, hga, hgac, tid, htid, hut, hq, hqa⟩
            · exact Or.inl ⟨tid, ⟨htid, hut⟩, hq, hqa⟩
            · exact Or.inr ⟨g', hg'mem, hga, hgac, tid, htid, hut, hq, hqa⟩
      · have hA' : v.hasActive = false := by simpa using hA
        simp only [writeTargets, hA', Bool.false_eq_true, if_false, ih, List.mem_cons]
        constructor
        · rintro ⟨g', hg', hrest⟩
          exact ⟨g', Or.inr hg', hrest⟩
        · rintro ⟨g', rfl | hg'mem, hga, hrest⟩
          · exact absurd hga (by simp [hA'])
          · exact ⟨g', hg'mem, hga, hrest⟩

/-- C8: for a write whose `values` set `active` and whose template
groups are disjoint, every unique-flagged template `tid` of a group has
the group's `active` value propagated — through the activate/deactivate
batches computed over the inactive-inclusive association — to ALL its
variants, so that after `Template.write` each variant's `active`
matches its template's new value. -/
theorem write_propagates_active (db : DB) (args : List (List Nat × WriteValues))
    (tids : List Nat) (v : WriteValues) (tid : Nat)
    (hnodup : (db.products.map (fun p => p.id)).Nodup)
    (hdisj : args.Pairwise (fun g1 g2 => ∀ x ∈ g1.1, x ∉ g2.1))
    (hg : (tids, v) ∈ args) (hv : v.hasActive = true)
    (ht : tid ∈ tids) (hu : templUnique db tid = true) :
    (∀ p ∈ (template_write db args).products, p.templateId = tid → p.active = v.active)
    ∧ (∀ t ∈ (template_write db args).templates, t.id = tid → t.active = v.active) := by
  obtain ⟨l1, l2, hargs⟩ := List.append_of_mem hg
  subst hargs
  rw [List.pairwise_append] at hdisj
  obtain ⟨-, hp2, hcross⟩ := hdisj
  rw [List.pairwise_cons] at hp2
  obtain ⟨hgpost, -⟩ := hp2
  have hpre : ∀ g' ∈ l1, tid ∉ g'.1 := fun g' hg' hmem =>
    hcross g' hg' (tids, v) (List.mem_cons_self _ _) tid hmem ht
  have hpost : ∀ g' ∈ l2, tid ∉ g'.1 := fun g' hg' => hgpost g' hg' tid ht
  constructor
  · intro p hpmem hpt
    rw [template_write_products] at hpmem
    obtain ⟨p0, hp0, hpe⟩ := List.mem_map.mp hpmem
    by_cases hD : (((writeTargets db (l1 ++ (tids, v) :: l2)).2.map
        (fun r => r.id)).contains p0.id) = true
    · rw [if_pos hD] at hpe
      subst hpe
      have hpt0 : p0.templateId = tid := hpt
      have hex2 : p0.id ∈ (writeTargets db (l1 ++ (tids, v) :: l2)).2.map
          (fun r => r.id) := by simpa using hD
      obtain ⟨r, hrD, hrid⟩ := List.mem_map.mp hex2
      obtain ⟨g', hg', hga, hgac, tid', htid', hut', hrP, hract⟩ :=
        (mem_writeTargets_snd db _ r).mp hrD
      obtain ⟨hrdb, hrt⟩ := mem_productsOf.mp hrP
      have hr0 : r = p0 := List.inj_on_of_nodup_map hnodup hrdb hp0 hrid
      have htid'eq : tid' = tid := by rw [← hrt, hr0]; exact hpt0
      rcases List.mem_append.mp hg' with hg'1 | hg'2
      · exact absurd (htid'eq ▸ htid') (hpre g' hg'1)
      · rcases List.mem_cons.mp hg'2 with rfl | hg'3
        · exact hgac.symm
        · exact absurd (htid'eq ▸ htid') (hpost g' hg'3)
    · by_cases hA : (((writeTargets db (l1 ++ (tids, v) :: l2)).1.map
          (fun r => r.id)).contains p0.id) = true
      · rw [if_neg hD, if_pos hA] at hpe
        subst hpe
        have hpt0 : p0.templateId = tid := hpt
        have hex1 : p0.id ∈ (writeTargets db (l1 ++ (tids, v) :: l2)).1.map
            (fun r => r.id) := by simpa using hA
        obtain ⟨r, hrA, hrid⟩ := List.mem_map.mp hex1
        obtain ⟨g', hg', hga, hgac, tid', htid', hut', hrP⟩ :=
          (mem_writeTargets_fst db _ r).mp hrA
        obtain ⟨hrdb, hrt⟩ := mem_productsOf.mp hrP
        have hr0 : r = p0 := List.inj_on_of_nodup_map hnodup hrdb hp0 hrid
        have htid'eq : tid' = tid := by rw [← hrt, hr0]; exact hpt0
        rcases List.mem_append.mp hg' with hg'1 | hg'2
        · exact absurd (htid'eq ▸ htid') (hpre g' hg'1)
        · rcases List.mem_cons.mp hg'2 with rfl | hg'3
          · exact hgac.symm
          · exact absurd (htid'eq ▸ htid') (hpost g' hg'3)
      · rw [if_neg hD, if_neg hA] at hpe
        subst hpe
        have hp0P : p0 ∈ productsOf db tid := mem_productsOf.mpr ⟨hp0, hpt⟩
        cases hva : v.active with
        | false =>
          cases hp0a : p0.active with
          | false => rfl
          | true =>
            exfalso
            apply hD
            have hmem2 : p0 ∈ (writeTargets db (l1 ++ (tids, v) :: l2)).2 :=
              (mem_writeTargets_snd db _ p0).mpr
                ⟨(tids, v), List.mem_append.mpr (Or.inr (List.mem_cons_self _ _)),
                  hv, hva, tid, ht, hu, hp0P, hp0a⟩
            simpa using List.mem_map.mpr ⟨p0, hmem2, rfl⟩
        | true =>
          exfalso
          apply hA
          have hmem1 : p0 ∈ (writeTargets db (l1 ++ (tids, v) :: l2)).1 :=
            (mem_writeTargets_fst db _ p0).mpr
              ⟨(tids, v), List.mem_append.mpr (Or.inr (List.mem_cons_self _ _)),
                hv, hva, tid, ht, hu, hp0P⟩
          simpa using List.mem_map.mpr ⟨p0, hmem1, rfl⟩
  · intro t htmem htid
    rw [template_write_templates] at htmem
    obtain ⟨t0, ht0, hte⟩ := List.mem_map.mp htmem
    subst hte
    have ht0id : t0.id = tid := by
      rw [← applyGroupsToTemplate_id t0 (l1 ++ (tids, v) :: l2)]
      exact htid
    exact applyGroupsToTemplate_active t0 l1 l2 tids v
      (fun g hg => by rw [ht0id]; exact hpre g hg)
      (fun g hg => by rw [ht0id]; exact hpost g hg)
      (by rw [ht0id]; exact ht) hv

/-- C8 (witness): deactivating the unique template `B` (one write pair,
`active := false`) deactivates both of its variants (ids 2 and 5, one
currently active, one already inactive) and leaves `B` inactive. -/
theorem write_propagates_active_witness :
    (∀ p ∈ (template_write { templates := [tU, tN], products := [v2, v5, v1] }
        [([1], { hasActive := true, active := false })]).products,
      p.templateId = 1 → p.active = false)
    ∧ (∀ t ∈ (template_write { templates := [tU, tN], products := [v2, v5, v1] }
        [([1], { hasActive := true, active := false })]).templates,
      t.id = 1 → t.active = false) :=
  write_propagates_active { templates := [tU, tN], products := [v2, v5, v1] }
    [([1], { hasActive := true, active := false })]
    [1] { hasActive := true, active := false } 1
    (by decide) (by decide) (by decide) (by decide) (by decide) (by decide)

end ProductVariantUnique
